import Mathlib

/-!
Shallow embedding of the TypeScript 2D geometry toolkit (the `Vector2`,
`Polygon` and `Collision2D` namespaces of the repository).

JavaScript numbers are modelled as exact real numbers.  Where an IEEE-754
special value (NaN) influences a function's observable result, the embedding
makes that behaviour explicit at its unique source, with a comment citing the
JavaScript arithmetic fact being used (every comparison with NaN is false;
Math.sqrt of a negative argument is NaN; 0/0 is NaN).
-/

/-- interface Point \x7b x : number, y : number \x7d — shared by the
Collision2D and Polygon namespaces of the source. -/
@[ext]
structure Point where
  x : ℝ
  y : ℝ

/-- A result point whose JavaScript-number coordinates may be NaN
(`none` = NaN).  Only `Collision2D.CirclesIntersection` can put NaN into a
result point. -/
structure JsPoint where
  x : Option ℝ
  y : Option ℝ

namespace Collision2D

/-- interface Circle \x7b radius : number, center : Point \x7d (declared
inside namespace Collision2D in the source). -/
structure Circle where
  radius : ℝ
  center : Point

/-- `Collision2D.PointOnLineSegment(point, line, threshold)`.
A line segment is the pair `(line[0], line[1])`.  The body mirrors the
source: `cross` test first (early `return false`), then the interval test on
the axis of greater extent. -/
def PointOnLineSegment (point : Point) (line : Point × Point) (threshold : ℝ) : Prop :=
  let dxc := point.x - line.1.x
  let dyc := point.y - line.1.y
  let dxl := line.2.x - line.1.x
  let dyl := line.2.y - line.1.y
  let cross := dxc * dyl - dyc * dxl
  if |cross| > threshold then False
  else if |dxl| ≥ |dyl| then
    if dxl > 0 then line.1.x ≤ point.x ∧ point.x ≤ line.2.x
    else line.2.x ≤ point.x ∧ point.x ≤ line.1.x
  else
    if dyl > 0 then line.1.y ≤ point.y ∧ point.y ≤ line.2.y
    else line.2.y ≤ point.y ∧ point.y ≤ line.1.y

/-- `Collision2D.PointInsideCircle(point, circle)`.
The source computes
`dist = Math.sqrt((p1.x-p2.x)*(p1.x-p2.x) + (p1.y-p2.y)*p1.y - p2.y)`
(note: the y-term is `(p1.y-p2.y)*p1.y - p2.y`, not a square) and returns
`dist < circle.radius`.  When the radicand is negative, `Math.sqrt` yields
NaN and `NaN < radius` is false; the conjunct `0 ≤ radicand` encodes exactly
that. -/
def PointInsideCircle (point : Point) (circle : Circle) : Prop :=
  let radicand := (point.x - circle.center.x) * (point.x - circle.center.x) +
      (point.y - circle.center.y) * point.y - circle.center.y
  0 ≤ radicand ∧ Real.sqrt radicand < circle.radius

/-- `Collision2D.CirclesOverlapping(circle1, circle2)`.
Same defective radicand as `PointInsideCircle`:
`(p1.x-p2.x)*(p1.x-p2.x) + (p1.y-p2.y)*p1.y - p2.y`; the comparison is
`dist < r_sum`, and a NaN `dist` (negative radicand) compares false. -/
def CirclesOverlapping (circle1 circle2 : Circle) : Prop :=
  let p1 := circle1.center
  let p2 := circle2.center
  let radicand := (p1.x - p2.x) * (p1.x - p2.x) + (p1.y - p2.y) * p1.y - p2.y
  0 ≤ radicand ∧ Real.sqrt radicand < circle1.radius + circle2.radius

/-- `Collision2D.LineSegmentsOverlapping(line1, line2)` — the literal
six-disjunct condition of the source, each `PointOnLineSegment` call with the
default threshold 0. -/
def LineSegmentsOverlapping (line1 line2 : Point × Point) : Prop :=
  let pointA := line1.1
  let pointB := line1.2
  let pointC := line2.1
  let pointD := line2.2
  (PointOnLineSegment pointC line1 0 ∧ PointOnLineSegment pointB line2 0) ∨
    (PointOnLineSegment pointD line1 0 ∧ PointOnLineSegment pointB line2 0) ∨
    (PointOnLineSegment pointA line2 0 ∧ PointOnLineSegment pointC line1 0) ∨
    (PointOnLineSegment pointA line2 0 ∧ PointOnLineSegment pointD line1 0) ∨
    (PointOnLineSegment pointA line2 0 ∧ PointOnLineSegment pointB line2 0) ∨
    (PointOnLineSegment pointD line1 0 ∧ PointOnLineSegment pointC line1 0)

/-- `Collision2D.LineSegmentsIntersection(line1, line2)`.
In the source, `s` and `t` are obtained by dividing by
`(-s2_x * s1_y + s1_x * s2_y)`.  When that denominator is 0 the JavaScript
quotients are NaN or ±∞ and the guard `s >= 0 && s <= 1 && t >= 0 && t <= 1`
is false, so the function returns null; the embedding tests the denominator
explicitly for exactly that reason.  Otherwise all quantities are real and
the translation is literal. -/
noncomputable def LineSegmentsIntersection (e1 e2 : Point × Point) : Option Point :=
  let s1_x := e1.2.x - e1.1.x
  let s1_y := e1.2.y - e1.1.y
  let s2_x := e2.2.x - e2.1.x
  let s2_y := e2.2.y - e2.1.y
  if (-s2_x * s1_y + s1_x * s2_y) = 0 then none
  else
    let s := (-s1_y * (e1.1.x - e2.1.x) + s1_x * (e1.1.y - e2.1.y)) /
        (-s2_x * s1_y + s1_x * s2_y)
    let t := (s2_x * (e1.1.y - e2.1.y) - s2_y * (e1.1.x - e2.1.x)) /
        (-s2_x * s1_y + s1_x * s2_y)
    if 0 ≤ s ∧ s ≤ 1 ∧ 0 ≤ t ∧ t ≤ 1 then
      some ⟨((e1.2.x - e1.1.x) * (e2.2.x * e2.1.y - e2.2.y * e2.1.x) -
              (e2.2.x - e2.1.x) * (e1.2.x * e1.1.y - e1.2.y * e1.1.x)) /
            ((e1.2.y - e1.1.y) * (e2.2.x - e2.1.x) -
              (e2.2.y - e2.1.y) * (e1.2.x - e1.1.x)),
            ((e2.2.y - e2.1.y) * (e1.2.x * e1.1.y - e1.2.y * e1.1.x) -
              (e1.2.y - e1.1.y) * (e2.2.x * e2.1.y - e2.2.y * e2.1.x)) /
            ((e2.2.y - e2.1.y) * (e1.2.x - e1.1.x) -
              (e1.2.y - e1.1.y) * (e2.2.x - e2.1.x))⟩
    else none

/-- Tail of `Collision2D.CirclesIntersection` after the null guards, for a
center distance `d ≠ 0`.  All quantities are then ordinary reals: with
`|r0 - r1| ≤ d ≤ r0 + r1` and `d > 0` the radicand of `h` equals
`((r0+r1)² - d²)(d² - (r0-r1)²) / (4d²) ≥ 0`, so `Math.sqrt` cannot yield
NaN here. -/
noncomputable def ciPoints (circle1 circle2 : Circle) (d : ℝ) : List JsPoint :=
  let x0 := circle1.center.x
  let y0 := circle1.center.y
  let r0 := circle1.radius
  let x1 := circle2.center.x
  let y1 := circle2.center.y
  let r1 := circle2.radius
  let dx := x1 - x0
  let dy := y1 - y0
  let a := (r0 * r0 - r1 * r1 + d * d) / (2 * d)
  let x2 := x0 + dx * a / d
  let y2 := y0 + dy * a / d
  let h := Real.sqrt (r0 * r0 - a * a)
  let rx := -dy * (h / d)
  let ry := dx * (h / d)
  let xi := x2 + rx
  let xi_prime := x2 - rx
  let yi := y2 + ry
  let yi_prime := y2 - ry
  if xi = xi_prime ∧ yi = yi_prime then [⟨some xi, some yi⟩]
  else [⟨some xi, some yi⟩, ⟨some xi_prime, some yi_prime⟩]

/-- `Collision2D.CirclesIntersection(circle1, circle2)`.
The source has only the two null guards; the `d = 0` branch here makes the
JavaScript NaN cascade explicit: reaching that point with `d = 0` forces
`r0 = r1` (otherwise the second guard `d < Math.abs(r0-r1)` fired), so
`a = (r0*r0 - r1*r1 + 0)/0 = 0/0 = NaN`, every subsequent value is NaN, the
test `xi == xi_prime && yi == yi_prime` on NaN is false, and the function
returns a two-element array of NaN points. -/
noncomputable def CirclesIntersection (circle1 circle2 : Circle) :
    Option (List JsPoint) :=
  let dx := circle2.center.x - circle1.center.x
  let dy := circle2.center.y - circle1.center.y
  let d := Real.sqrt (dy * dy + dx * dx)
  if d > circle1.radius + circle2.radius then none
  else if d < |circle1.radius - circle2.radius| then none
  else if d = 0 then some [⟨none, none⟩, ⟨none, none⟩]
  else some (ciPoints circle1 circle2 d)

end Collision2D

namespace Polygon

/-- The loop body of `Polygon.CreateRegular`:
`for (let i = 0; i < 2*Math.PI; i += 2*Math.PI/nSided) push(vertex(i))`.
The source loop has no iteration bound other than its guard; in exact real
arithmetic the guard admits exactly `nSided` iterations
(`regularLoop_spec`), so any fuel above that bound yields the loop's value. -/
noncomputable def regularLoop (radius : ℝ) (center : Point) (step : ℝ) :
    ℕ → ℝ → List Point
  | 0, _ => []
  | fuel + 1, i =>
    if i < 2 * Real.pi then
      ⟨radius * Real.cos i + center.x, radius * Real.sin i + center.y⟩ ::
        regularLoop radius center step fuel (i + step)
    else []

/-- `Polygon.CreateRegular(nSided, sideLength, center)`.
The source computes `radius = sideLength / (2 * Math.sin(180 / nSided))` —
note `180 / nSided` is passed to `Math.sin` in radians, not `Math.PI /
nSided` — and pushes one vertex per loop iteration.  The default center is
the origin; callers of the model pass it explicitly. -/
noncomputable def CreateRegular (nSided : ℕ) (sideLength : ℝ) (center : Point) :
    List Point :=
  let radius := sideLength / (2 * Real.sin (180 / (nSided : ℝ)))
  regularLoop radius center (2 * Real.pi / (nSided : ℝ)) (nSided + 1) 0

/-- `polygon[i].x` with the source's out-of-range behaviour irrelevant: every
access in the loops below has `i < polygon.length`. -/
def px (polygon : List Point) (i : ℕ) : ℝ := (polygon.getD i ⟨0, 0⟩).x

/-- `polygon[i].y`, see `px`. -/
def py (polygon : List Point) (i : ℕ) : ℝ := (polygon.getD i ⟨0, 0⟩).y

/-- The accumulated `area` variable of `Polygon.GetArea` before the final
division: the loop starts with `j = polygon.length - 1` and sets `j = i`
afterwards, i.e. `j = (i + (n-1)) % n`. -/
def areaSum (polygon : List Point) : ℝ :=
  let n := polygon.length
  ∑ i in Finset.range n,
    (px polygon ((i + (n - 1)) % n) - px polygon i) *
      (py polygon ((i + (n - 1)) % n) + py polygon i)

/-- `Polygon.GetArea(polygon, signed)`. -/
noncomputable def GetArea (polygon : List Point) (signed : Bool) : ℝ :=
  if signed then areaSum polygon / 2 else |areaSum polygon| / 2

/-- The cyclic shoelace sum `Σ (x_i*y_j - y_i*x_j)` with `j = (i+1) % n`:
this is the value the `areaSum` loop accumulates (`area_sum_eq`), and the
`cross` factors of `GetCenterPoint` are its summands. -/
def shoelace (polygon : List Point) : ℝ :=
  ∑ i in Finset.range polygon.length,
    (px polygon i * py polygon ((i + 1) % polygon.length) -
      py polygon i * px polygon ((i + 1) % polygon.length))

/-- Numerator sum of the x-coordinate of `Polygon.GetCenterPoint`:
`Σ (polygon[i].x + polygon[j].x) * cross` with `j = (i+1) % n` and
`cross = polygon[i].x*polygon[j].y - polygon[i].y*polygon[j].x`. -/
def cnumX (polygon : List Point) : ℝ :=
  let n := polygon.length
  ∑ i in Finset.range n,
    (px polygon i + px polygon ((i + 1) % n)) *
      (px polygon i * py polygon ((i + 1) % n) -
        py polygon i * px polygon ((i + 1) % n))

/-- Numerator sum of the y-coordinate of `Polygon.GetCenterPoint`. -/
def cnumY (polygon : List Point) : ℝ :=
  let n := polygon.length
  ∑ i in Finset.range n,
    (py polygon i + py polygon ((i + 1) % n)) *
      (px polygon i * py polygon ((i + 1) % n) -
        py polygon i * px polygon ((i + 1) % n))

/-- `Polygon.GetCenterPoint(polygon)`: the accumulated numerators divided by
`6 * GetArea(polygon, true)`. -/
noncomputable def GetCenterPoint (polygon : List Point) : Point :=
  let area := GetArea polygon true
  ⟨cnumX polygon / (6 * area), cnumY polygon / (6 * area)⟩

/-- `Polygon.TranslateBy(polygon, vector)`: adds `vector` to every vertex in
place; the model returns the final vertex array. -/
def TranslateBy (polygon : List Point) (vector : Point) : List Point :=
  polygon.map fun v => ⟨v.x + vector.x, v.y + vector.y⟩

/-- `Polygon.TranslateTo(polygon, position)`.
The source first overwrites `position` with `position - centerPoint` (the
translation delta) and then adds the overwritten `position` to every vertex
in place.  The model returns the pair (final vertex array, final value of
the `position` argument). -/
noncomputable def TranslateTo (polygon : List Point) (position : Point) :
    List Point × Point :=
  let cp := GetCenterPoint polygon
  let newPos : Point := ⟨position.x - cp.x, position.y - cp.y⟩
  (polygon.map fun k => ⟨k.x + newPos.x, k.y + newPos.y⟩, newPos)

end Polygon

/-- class Vector2 \x7b x, y : number \x7d. -/
@[ext]
structure Vector2 where
  x : ℝ
  y : ℝ

namespace Vector2

/-- Static `Vector2.Length(v)`. -/
noncomputable def Length (v : Vector2) : ℝ := Real.sqrt (v.x * v.x + v.y * v.y)

/-- Static `Vector2.Normalize(v)`.
`Math.sqrt(v.x*v.x + v.y*v.y) || 1` evaluates to 1 exactly when the square
root is falsy; the radicand is a sum of squares, so the root is a real
number ≥ 0 and the only falsy case is 0. -/
noncomputable def Normalize (v : Vector2) : Vector2 :=
  let length := Real.sqrt (v.x * v.x + v.y * v.y)
  let length' := if length = 0 then 1 else length
  ⟨v.x / length', v.y / length'⟩

/-- Instance method `v.length()`. -/
noncomputable def length (v : Vector2) : ℝ := Real.sqrt (v.x * v.x + v.y * v.y)

/-- Instance method `v.normalize()`: divides `this.x` and `this.y` in place by
the same guarded length as the static form; the model returns the final value
of `this`. -/
noncomputable def normalize (v : Vector2) : Vector2 :=
  let len := Real.sqrt (v.x * v.x + v.y * v.y)
  let len' := if len = 0 then 1 else len
  ⟨v.x / len', v.y / len'⟩

end Vector2

namespace Collision2D

/-- When the solved `a` satisfies `a * a = r0 * r0` (the tangent
configurations), `h = 0` and the two computed points coincide, so `ciPoints`
returns a single point. -/
lemma ciPoints_single (c1 c2 : Circle) (d : ℝ)
    (ha : (c1.radius * c1.radius - c2.radius * c2.radius + d * d) / (2 * d) *
        ((c1.radius * c1.radius - c2.radius * c2.radius + d * d) / (2 * d)) =
      c1.radius * c1.radius) :
    ∃ p : JsPoint, ciPoints c1 c2 d = [p] := by
  refine ⟨⟨some (c1.center.x + (c2.center.x - c1.center.x) *
      ((c1.radius * c1.radius - c2.radius * c2.radius + d * d) / (2 * d)) / d),
    some (c1.center.y + (c2.center.y - c1.center.y) *
      ((c1.radius * c1.radius - c2.radius * c2.radius + d * d) / (2 * d)) / d)⟩, ?_⟩
  unfold ciPoints
  simp only
  rw [show c1.radius * c1.radius -
      (c1.radius * c1.radius - c2.radius * c2.radius + d * d) / (2 * d) *
        ((c1.radius * c1.radius - c2.radius * c2.radius + d * d) / (2 * d)) = 0 from by
      rw [ha]; ring,
    Real.sqrt_zero]
  norm_num

/-- When `a * a < r0 * r0` and the centers differ, `h > 0`, the two computed
points differ in at least one coordinate, and `ciPoints` returns them both. -/
lemma ciPoints_two (c1 c2 : Circle) (d : ℝ) (hd : 0 < d)
    (hne : c2.center.x - c1.center.x ≠ 0 ∨ c2.center.y - c1.center.y ≠ 0)
    (hpos : 0 < c1.radius * c1.radius -
      ((c1.radius * c1.radius - c2.radius * c2.radius + d * d) / (2 * d)) *
        ((c1.radius * c1.radius - c2.radius * c2.radius + d * d) / (2 * d))) :
    ∃ p q : JsPoint, p ≠ q ∧ ciPoints c1 c2 d = [p, q] := by
  have hh : 0 < Real.sqrt (c1.radius * c1.radius -
      (c1.radius * c1.radius - c2.radius * c2.radius + d * d) / (2 * d) *
        ((c1.radius * c1.radius - c2.radius * c2.radius + d * d) / (2 * d))) := by
    apply Real.sqrt_pos.mpr
    calc (0:ℝ) < _ := hpos
      _ = _ := by ring
  unfold ciPoints
  simp only
  rcases hne with hdx | hdy
  · have hry : (c2.center.x - c1.center.x) * (Real.sqrt (c1.radius * c1.radius -
        (c1.radius * c1.radius - c2.radius * c2.radius + d * d) / (2 * d) *
          ((c1.radius * c1.radius - c2.radius * c2.radius + d * d) / (2 * d))) / d) ≠ 0 :=
      mul_ne_zero hdx (div_ne_zero (ne_of_gt hh) (ne_of_gt hd))
    rw [if_neg]
    · refine ⟨_, _, ?_, rfl⟩
      intro hpq
      rw [JsPoint.mk.injEq] at hpq
      have := Option.some.inj hpq.2
      apply hry
      linarith
    · rintro ⟨-, hy⟩
      apply hry
      linarith
  · have hrx : -(c2.center.y - c1.center.y) * (Real.sqrt (c1.radius * c1.radius -
        (c1.radius * c1.radius - c2.radius * c2.radius + d * d) / (2 * d) *
          ((c1.radius * c1.radius - c2.radius * c2.radius + d * d) / (2 * d))) / d) ≠ 0 :=
      mul_ne_zero (neg_ne_zero.mpr hdy) (div_ne_zero (ne_of_gt hh) (ne_of_gt hd))
    rw [if_neg]
    · refine ⟨_, _, ?_, rfl⟩
      intro hpq
      rw [JsPoint.mk.injEq] at hpq
      have := Option.some.inj hpq.1
      apply hrx
      linarith
    · rintro ⟨hx, -⟩
      apply hrx
      linarith

end Collision2D

namespace Polygon

/-- Reindexing a sum over `Finset.range n` along the cyclic successor. -/
lemma sum_cycSucc (n : ℕ) (hn : 0 < n) (g : ℕ → ℝ) :
    ∑ i in Finset.range n, g ((i + 1) % n) = ∑ i in Finset.range n, g i := by
  obtain ⟨m, rfl⟩ : ∃ m, n = m + 1 := ⟨n - 1, by omega⟩
  rw [Finset.sum_range_succ, Finset.sum_range_succ' g m]
  congr 1
  · refine Finset.sum_congr rfl fun i hi => ?_
    have hi' := Finset.mem_range.mp hi
    rw [Nat.mod_eq_of_lt (by omega)]
  · rw [Nat.mod_self]

/-- Reindexing a sum over `Finset.range n` along the cyclic predecessor. -/
lemma sum_cycPred (n : ℕ) (hn : 0 < n) (g : ℕ → ℝ) :
    ∑ i in Finset.range n, g ((i + (n - 1)) % n) = ∑ i in Finset.range n, g i := by
  obtain ⟨m, rfl⟩ : ∃ m, n = m + 1 := ⟨n - 1, by omega⟩
  rw [Finset.sum_range_succ' (fun i => g ((i + (m + 1 - 1)) % (m + 1))) m,
    Finset.sum_range_succ]
  congr 1
  · refine Finset.sum_congr rfl fun i hi => ?_
    have hi' := Finset.mem_range.mp hi
    rw [show i + 1 + (m + 1 - 1) = i + (m + 1) by omega, Nat.add_mod_right,
      Nat.mod_eq_of_lt (by omega)]
  · rw [show 0 + (m + 1 - 1) = m by omega, Nat.mod_eq_of_lt (by omega)]

/-- Cyclic telescoping: differences along the successor sum to zero. -/
lemma sum_cyc_sub (n : ℕ) (g : ℕ → ℝ) :
    ∑ i in Finset.range n, (g i - g ((i + 1) % n)) = 0 := by
  rcases Nat.eq_zero_or_pos n with h | h
  · subst h; simp
  · rw [Finset.sum_sub_distrib, sum_cycSucc n h g, sub_self]

/-- Cyclic telescoping: differences along the predecessor sum to zero. -/
lemma sum_cyc_sub_pred (n : ℕ) (g : ℕ → ℝ) :
    ∑ i in Finset.range n, (g ((i + (n - 1)) % n) - g i) = 0 := by
  rcases Nat.eq_zero_or_pos n with h | h
  · subst h; simp
  · rw [Finset.sum_sub_distrib, sum_cycPred n h g, sub_self]

/-- The cyclic successor of the cyclic predecessor of `i` is `i`. -/
lemma succ_of_pred (n i : ℕ) (hi : i < n) :
    ((i + (n - 1)) % n + 1) % n = i := by
  rw [Nat.mod_add_mod (i + (n - 1)) n 1, show i + (n - 1) + 1 = i + n by omega,
    Nat.add_mod_right, Nat.mod_eq_of_lt hi]

/-- The predecessor-indexed `areaSum` loop accumulates the shoelace sum. -/
lemma area_sum_eq (polygon : List Point) : areaSum polygon = shoelace polygon := by
  rcases Nat.eq_zero_or_pos polygon.length with h0 | hpos
  · simp [areaSum, shoelace, h0]
  · unfold areaSum shoelace
    have key : ∀ i ∈ Finset.range polygon.length,
        (px polygon ((i + (polygon.length - 1)) % polygon.length) - px polygon i) *
          (py polygon ((i + (polygon.length - 1)) % polygon.length) + py polygon i) =
        ((fun j => px polygon j * py polygon j)
            ((i + (polygon.length - 1)) % polygon.length) -
          (fun j => px polygon j * py polygon j) i) +
        (fun j => px polygon j * py polygon ((j + 1) % polygon.length) -
            py polygon j * px polygon ((j + 1) % polygon.length))
          ((i + (polygon.length - 1)) % polygon.length) := by
      intro i hi
      have hi' := Finset.mem_range.mp hi
      simp only
      rw [succ_of_pred polygon.length i hi']
      ring
    rw [Finset.sum_congr rfl key, Finset.sum_add_distrib,
      sum_cyc_sub_pred polygon.length (fun j => px polygon j * py polygon j),
      sum_cycPred polygon.length hpos
        (fun j => px polygon j * py polygon ((j + 1) % polygon.length) -
          py polygon j * px polygon ((j + 1) % polygon.length)),
      zero_add]

/-- The signed `GetArea` is half the shoelace sum. -/
lemma getArea_signed (polygon : List Point) :
    GetArea polygon true = shoelace polygon / 2 := by
  rw [GetArea, if_pos rfl, area_sum_eq]

lemma length_TranslateBy (polygon : List Point) (v : Point) :
    (TranslateBy polygon v).length = polygon.length := List.length_map _ _

lemma px_TranslateBy (polygon : List Point) (v : Point) {i : ℕ}
    (h : i < polygon.length) :
    px (TranslateBy polygon v) i = px polygon i + v.x := by
  unfold px TranslateBy
  rw [List.getD_eq_getElem _ _ (by simpa using h), List.getD_eq_getElem _ _ h,
    List.getElem_map]

lemma py_TranslateBy (polygon : List Point) (v : Point) {i : ℕ}
    (h : i < polygon.length) :
    py (TranslateBy polygon v) i = py polygon i + v.y := by
  unfold py TranslateBy
  rw [List.getD_eq_getElem _ _ (by simpa using h), List.getD_eq_getElem _ _ h,
    List.getElem_map]

/-- The shoelace sum is invariant under translation of every vertex. -/
lemma shoelace_TranslateBy (polygon : List Point) (v : Point) :
    shoelace (TranslateBy polygon v) = shoelace polygon := by
  unfold shoelace
  rw [length_TranslateBy]
  rcases Nat.eq_zero_or_pos polygon.length with h0 | hpos
  · rw [h0]; simp
  · have t1 : ∑ i in Finset.range polygon.length,
        (px polygon i - px polygon ((i + 1) % polygon.length)) = 0 :=
      sum_cyc_sub _ _
    have t2 : ∑ i in Finset.range polygon.length,
        (py polygon i - py polygon ((i + 1) % polygon.length)) = 0 :=
      sum_cyc_sub _ _
    have key : ∀ i ∈ Finset.range polygon.length,
        px (TranslateBy polygon v) i *
            py (TranslateBy polygon v) ((i + 1) % polygon.length) -
          py (TranslateBy polygon v) i *
            px (TranslateBy polygon v) ((i + 1) % polygon.length) =
        (px polygon i * py polygon ((i + 1) % polygon.length) -
          py polygon i * px polygon ((i + 1) % polygon.length)) +
        (v.y * (px polygon i - px polygon ((i + 1) % polygon.length)) -
          v.x * (py polygon i - py polygon ((i + 1) % polygon.length))) := by
      intro i hi
      have hi' := Finset.mem_range.mp hi
      have hsi : (i + 1) % polygon.length < polygon.length := Nat.mod_lt _ hpos
      rw [px_TranslateBy polygon v hi', py_TranslateBy polygon v hsi,
        py_TranslateBy polygon v hi', px_TranslateBy polygon v hsi]
      ring
    rw [Finset.sum_congr rfl key, Finset.sum_add_distrib]
    have hz : ∑ i in Finset.range polygon.length,
        (v.y * (px polygon i - px polygon ((i + 1) % polygon.length)) -
          v.x * (py polygon i - py polygon ((i + 1) % polygon.length))) = 0 := by
      rw [Finset.sum_sub_distrib, ← Finset.mul_sum, ← Finset.mul_sum, t1, t2,
        mul_zero, mul_zero, sub_self]
    rw [hz, add_zero]

/-- Effect of a vertex translation on the x-numerator of the centroid. -/
lemma cnumX_TranslateBy (polygon : List Point) (v : Point) :
    cnumX (TranslateBy polygon v) = cnumX polygon + 3 * v.x * shoelace polygon := by
  unfold cnumX shoelace
  rw [length_TranslateBy]
  rcases Nat.eq_zero_or_pos polygon.length with h0 | hpos
  · rw [h0]; simp
  · have tG : ∑ i in Finset.range polygon.length,
        ((v.y * (px polygon i * px polygon i) -
            v.x * (px polygon i * py polygon i) +
            2 * v.x * v.y * px polygon i - 2 * v.x * v.x * py polygon i) -
          (v.y * (px polygon ((i + 1) % polygon.length) *
              px polygon ((i + 1) % polygon.length)) -
            v.x * (px polygon ((i + 1) % polygon.length) *
              py polygon ((i + 1) % polygon.length)) +
            2 * v.x * v.y * px polygon ((i + 1) % polygon.length) -
            2 * v.x * v.x * py polygon ((i + 1) % polygon.length))) = 0 :=
      sum_cyc_sub _ (fun j => v.y * (px polygon j * px polygon j) -
        v.x * (px polygon j * py polygon j) +
        2 * v.x * v.y * px polygon j - 2 * v.x * v.x * py polygon j)
    have key : ∀ i ∈ Finset.range polygon.length,
        (px (TranslateBy polygon v) i +
            px (TranslateBy polygon v) ((i + 1) % polygon.length)) *
          (px (TranslateBy polygon v) i *
              py (TranslateBy polygon v) ((i + 1) % polygon.length) -
            py (TranslateBy polygon v) i *
              px (TranslateBy polygon v) ((i + 1) % polygon.length)) =
        (px polygon i + px polygon ((i + 1) % polygon.length)) *
          (px polygon i * py polygon ((i + 1) % polygon.length) -
            py polygon i * px polygon ((i + 1) % polygon.length)) +
        3 * v.x * (px polygon i * py polygon ((i + 1) % polygon.length) -
            py polygon i * px polygon ((i + 1) % polygon.length)) +
        ((v.y * (px polygon i * px polygon i) -
            v.x * (px polygon i * py polygon i) +
            2 * v.x * v.y * px polygon i - 2 * v.x * v.x * py polygon i) -
          (v.y * (px polygon ((i + 1) % polygon.length) *
              px polygon ((i + 1) % polygon.length)) -
            v.x * (px polygon ((i + 1) % polygon.length) *
              py polygon ((i + 1) % polygon.length)) +
            2 * v.x * v.y * px polygon ((i + 1) % polygon.length) -
            2 * v.x * v.x * py polygon ((i + 1) % polygon.length))) := by
      intro i hi
      have hi' := Finset.mem_range.mp hi
      have hsi : (i + 1) % polygon.length < polygon.length := Nat.mod_lt _ hpos
      rw [px_TranslateBy polygon v hi', py_TranslateBy polygon v hsi,
        py_TranslateBy polygon v hi', px_TranslateBy polygon v hsi]
      ring
    rw [Finset.sum_congr rfl key, Finset.sum_add_distrib, Finset.sum_add_distrib,
      tG, add_zero, ← Finset.mul_sum]

/-- Effect of a vertex translation on the y-numerator of the centroid. -/
lemma cnumY_TranslateBy (polygon : List Point) (v : Point) :
    cnumY (TranslateBy polygon v) = cnumY polygon + 3 * v.y * shoelace polygon := by
  unfold cnumY shoelace
  rw [length_TranslateBy]
  rcases Nat.eq_zero_or_pos polygon.length with h0 | hpos
  · rw [h0]; simp
  · have tG : ∑ i in Finset.range polygon.length,
        ((v.y * (px polygon i * py polygon i) -
            v.x * (py polygon i * py polygon i) +
            2 * v.y * v.y * px polygon i - 2 * v.x * v.y * py polygon i) -
          (v.y * (px polygon ((i + 1) % polygon.length) *
              py polygon ((i + 1) % polygon.length)) -
            v.x * (py polygon ((i + 1) % polygon.length) *
              py polygon ((i + 1) % polygon.length)) +
            2 * v.y * v.y * px polygon ((i + 1) % polygon.length) -
            2 * v.x * v.y * py polygon ((i + 1) % polygon.length))) = 0 :=
      sum_cyc_sub _ (fun j => v.y * (px polygon j * py polygon j) -
        v.x * (py polygon j * py polygon j) +
        2 * v.y * v.y * px polygon j - 2 * v.x * v.y * py polygon j)
    have key : ∀ i ∈ Finset.range polygon.length,
        (py (TranslateBy polygon v) i +
            py (TranslateBy polygon v) ((i + 1) % polygon.length)) *
          (px (TranslateBy polygon v) i *
              py (TranslateBy polygon v) ((i + 1) % polygon.length) -
            py (TranslateBy polygon v) i *
              px (TranslateBy polygon v) ((i + 1) % polygon.length)) =
        (py polygon i + py polygon ((i + 1) % polygon.length)) *
          (px polygon i * py polygon ((i + 1) % polygon.length) -
            py polygon i * px polygon ((i + 1) % polygon.length)) +
        3 * v.y * (px polygon i * py polygon ((i + 1) % polygon.length) -
            py polygon i * px polygon ((i + 1) % polygon.length)) +
        ((v.y * (px polygon i * py polygon i) -
            v.x * (py polygon i * py polygon i) +
            2 * v.y * v.y * px polygon i - 2 * v.x * v.y * py polygon i) -
          (v.y * (px polygon ((i + 1) % polygon.length) *
              py polygon ((i + 1) % polygon.length)) -
            v.x * (py polygon ((i + 1) % polygon.length) *
              py polygon ((i + 1) % polygon.length)) +
            2 * v.y * v.y * px polygon ((i + 1) % polygon.length) -
            2 * v.x * v.y * py polygon ((i + 1) % polygon.length))) := by
      intro i hi
      have hi' := Finset.mem_range.mp hi
      have hsi : (i + 1) % polygon.length < polygon.length := Nat.mod_lt _ hpos
      rw [px_TranslateBy polygon v hi', py_TranslateBy polygon v hsi,
        py_TranslateBy polygon v hi', px_TranslateBy polygon v hsi]
      ring
    rw [Finset.sum_congr rfl key, Finset.sum_add_distrib, Finset.sum_add_distrib,
      tG, add_zero, ← Finset.mul_sum]

/-- The centroid of `GetCenterPoint` is translation-equivariant whenever the
shoelace sum does not vanish. -/
lemma getCenterPoint_TranslateBy (polygon : List Point) (v : Point)
    (hS : shoelace polygon ≠ 0) :
    GetCenterPoint (TranslateBy polygon v) =
      ⟨(GetCenterPoint polygon).x + v.x, (GetCenterPoint polygon).y + v.y⟩ := by
  unfold GetCenterPoint
  rw [getArea_signed, getArea_signed, shoelace_TranslateBy, cnumX_TranslateBy,
    cnumY_TranslateBy]
  have h6 : (6 : ℝ) * (shoelace polygon / 2) = 3 * shoelace polygon := by ring
  simp only [h6, Point.mk.injEq]
  constructor
  · field_simp
    ring
  · field_simp
    ring

/-- In exact arithmetic the `CreateRegular` loop visits exactly the angles
`k * (2π/n)` for `k < n`: with `n ≤ k + fuel` the remaining iterations
produce the vertices `k, k+1, …, n-1`. -/
lemma regularLoop_spec (radius : ℝ) (center : Point) (n : ℕ) (hn : 0 < n) :
    ∀ fuel k : ℕ, n ≤ k + fuel →
      regularLoop radius center (2 * Real.pi / n) fuel
          ((k : ℝ) * (2 * Real.pi / n)) =
        (List.range (n - k)).map fun j =>
          ⟨radius * Real.cos (((k + j : ℕ) : ℝ) * (2 * Real.pi / n)) + center.x,
            radius * Real.sin (((k + j : ℕ) : ℝ) * (2 * Real.pi / n)) + center.y⟩ := by
  have hnR : (0 : ℝ) < (n : ℝ) := by exact_mod_cast hn
  have hstep : (0 : ℝ) < 2 * Real.pi / n :=
    div_pos (by positivity) hnR
  intro fuel
  induction fuel with
  | zero =>
    intro k hk
    rw [show n - k = 0 by omega]
    simp [regularLoop]
  | succ m ih =>
    intro k hk
    rw [regularLoop]
    by_cases hkn : k < n
    · rw [if_pos]
      · rw [show (k : ℝ) * (2 * Real.pi / n) + 2 * Real.pi / n =
            ((k + 1 : ℕ) : ℝ) * (2 * Real.pi / n) by push_cast; ring,
          ih (k + 1) (by omega), show n - k = n - (k + 1) + 1 by omega,
          List.range_succ_eq_map]
        simp only [List.map_cons, List.map_map, List.cons.injEq]
        refine ⟨by norm_num, ?_⟩
        refine List.map_congr_left fun j hj => ?_
        simp only [Function.comp_apply]
        rw [show k + (j + 1) = k + 1 + j from by omega]
      · have hkR : (k : ℝ) < (n : ℝ) := by exact_mod_cast hkn
        calc (k : ℝ) * (2 * Real.pi / n) < (n : ℝ) * (2 * Real.pi / n) :=
            mul_lt_mul_of_pos_right hkR hstep
          _ = 2 * Real.pi := by field_simp
    · rw [if_neg]
      · rw [show n - k = 0 by omega]
        simp
      · push_neg
        have hkR : (n : ℝ) ≤ (k : ℝ) := by exact_mod_cast Nat.le_of_not_lt hkn
        calc 2 * Real.pi = (n : ℝ) * (2 * Real.pi / n) := by field_simp
          _ ≤ (k : ℝ) * (2 * Real.pi / n) :=
            mul_le_mul_of_nonneg_right hkR (le_of_lt hstep)

/-- Closed form of `CreateRegular`: for `n ≥ 1` the loop yields exactly `n`
vertices, the k-th at angle `k * (2π/n)` on the circle of radius
`sideLength / (2 * sin(180/n))` — with `180/n` in radians, as the source
passes it to `Math.sin`. -/
lemma createRegular_spec (n : ℕ) (hn : 0 < n) (s : ℝ) (c : Point) :
    CreateRegular n s c = (List.range n).map fun k =>
      ⟨s / (2 * Real.sin (180 / (n : ℝ))) * Real.cos ((k : ℝ) * (2 * Real.pi / n)) + c.x,
        s / (2 * Real.sin (180 / (n : ℝ))) * Real.sin ((k : ℝ) * (2 * Real.pi / n)) + c.y⟩ := by
  unfold CreateRegular
  rw [show (0 : ℝ) = ((0 : ℕ) : ℝ) * (2 * Real.pi / n) by norm_num,
    regularLoop_spec _ _ n hn (n + 1) 0 (by omega)]
  simp

/-- `Math.sin(60)` — the radian value the source feeds to `Math.sin` for a
triangle — is negative: `60 - 18π ∈ (π, 2π)`. -/
lemma sin_sixty_neg : Real.sin 60 < 0 := by
  have h1 : Real.sin (60 - 18 * Real.pi + (9 : ℤ) * (2 * Real.pi)) =
      Real.sin (60 - 18 * Real.pi) := Real.sin_add_int_mul_two_pi _ 9
  have h2 : (60 : ℝ) - 18 * Real.pi + (9 : ℤ) * (2 * Real.pi) = 60 := by
    push_cast; ring
  rw [h2] at h1
  rw [h1]
  have h3 : Real.sin (60 - 19 * Real.pi + Real.pi) = -Real.sin (60 - 19 * Real.pi) :=
    Real.sin_add_pi _
  rw [show (60 : ℝ) - 19 * Real.pi + Real.pi = 60 - 18 * Real.pi by ring] at h3
  rw [h3, neg_lt_zero]
  apply Real.sin_pos_of_pos_of_lt_pi
  · have := Real.pi_lt_d2
    nlinarith
  · have := Real.pi_gt_three
    nlinarith

end Polygon

namespace Vector2

/-- A nonzero vector normalizes to a unit vector (shared core of the static
and the instance form, whose bodies are identical). -/
lemma normalize_unit (v : Vector2) (hv : v ≠ ⟨0, 0⟩) :
    Real.sqrt ((Normalize v).x * (Normalize v).x +
      (Normalize v).y * (Normalize v).y) = 1 := by
  have hpos : 0 < v.x * v.x + v.y * v.y := by
    by_contra hle
    push_neg at hle
    have hx : v.x = 0 := by nlinarith [mul_self_nonneg v.x, mul_self_nonneg v.y]
    have hy : v.y = 0 := by nlinarith [mul_self_nonneg v.x, mul_self_nonneg v.y]
    exact hv (Vector2.ext hx hy)
  have hl : 0 < Real.sqrt (v.x * v.x + v.y * v.y) := Real.sqrt_pos.mpr hpos
  have hsq : Real.sqrt (v.x * v.x + v.y * v.y) *
      Real.sqrt (v.x * v.x + v.y * v.y) = v.x * v.x + v.y * v.y :=
    Real.mul_self_sqrt (le_of_lt hpos)
  unfold Normalize
  simp only
  rw [if_neg (ne_of_gt hl)]
  have harg : v.x / Real.sqrt (v.x * v.x + v.y * v.y) *
        (v.x / Real.sqrt (v.x * v.x + v.y * v.y)) +
      v.y / Real.sqrt (v.x * v.x + v.y * v.y) *
        (v.y / Real.sqrt (v.x * v.x + v.y * v.y)) = 1 := by
    field_simp
  rw [harg, Real.sqrt_one]

end Vector2

/-- Claim C1: the spec states that `PointInsideCircle(p, c)` is true iff the
Euclidean distance from `p` to the center of `c` is strictly less than the
radius.  The code contradicts its own doc comment ("Point belongs to circle
when dist < radius"): its radicand multiplies instead of squaring the y-term.
At point `(0,0)` and circle `{center:(0,-9), radius:5}` the function returns
true (its radicand is `9`, so its "dist" is `3 < 5`) although the Euclidean
distance is `9`, which is not `< 5`. -/
theorem claim_C1_pointInsideCircle_defect :
    Collision2D.PointInsideCircle ⟨0, 0⟩ ⟨5, ⟨0, -9⟩⟩ ∧
    ¬ Real.sqrt (((0 : ℝ) - 0) ^ 2 + ((0 : ℝ) - (-9)) ^ 2) < 5 := by
  constructor
  · unfold Collision2D.PointInsideCircle
    norm_num
    rw [show (9 : ℝ) = 3 ^ 2 by norm_num, Real.sqrt_sq (by norm_num)]
    norm_num
  · rw [show ((0 : ℝ) - 0) ^ 2 + ((0 : ℝ) - (-9)) ^ 2 = 9 ^ 2 by norm_num,
      Real.sqrt_sq (by norm_num)]
    norm_num

/-- Claim C2: the spec states that `CreateRegular(sides, edgeLength, center)`
places vertex `i` at angle `i*(2π/sides)` on the circle of radius
`edgeLength / (2*sin(π/sides))`.  The code computes
`sideLength / (2 * Math.sin(180 / nSided))`, passing `180/n` — a degree
formula from the page it cites — to the radian function `Math.sin`.  At
`sides = 3, edgeLength = 1, center = (0,0)` the first vertex of the code lies
at `x = 1/(2*sin(60 rad)) < 0`, while the claimed radius
`1/(2*sin(π/3)) ≈ 0.577` is positive, so the claimed vertex `x` differs.
The vertex count itself is as claimed: the loop emits exactly 3 vertices. -/
theorem claim_C2_createRegular_radius_bug :
    ((Polygon.CreateRegular 3 1 ⟨0, 0⟩).getD 0 ⟨0, 0⟩).x < 0 ∧
    0 < 1 / (2 * Real.sin (Real.pi / 3)) * Real.cos 0 ∧
    (Polygon.CreateRegular 3 1 ⟨0, 0⟩).length = 3 := by
  have hs := Polygon.createRegular_spec 3 (by norm_num) 1 ⟨0, 0⟩
  refine ⟨?_, ?_, ?_⟩
  · have hx : ((Polygon.CreateRegular 3 1 ⟨0, 0⟩).getD 0 ⟨0, 0⟩).x =
        1 / (2 * Real.sin 60) := by
      rw [hs, show List.range 3 = [0, 1, 2] from rfl]
      simp only [List.map_cons, List.getD_cons_zero]
      norm_num [Real.cos_zero]
    rw [hx]
    exact div_neg_of_pos_of_neg one_pos (by linarith [Polygon.sin_sixty_neg])
  · rw [Real.cos_zero, mul_one]
    have hsin : 0 < Real.sin (Real.pi / 3) :=
      Real.sin_pos_of_pos_of_lt_pi (by positivity) (by linarith [Real.pi_pos])
    positivity
  · rw [hs]
    simp

/-- Claim C3: the spec states that `CirclesOverlapping(c1, c2)` is true iff
the Euclidean distance between the centers is strictly less than the sum of
the radii.  The code contradicts its own doc comment ("overlapping when sum
of their radii is greater than dist between their centers"): its radicand
multiplies instead of squaring the y-term.  For circles of radii 2 and 3 at
`(0,0)` and `(3,4)` it returns true (its radicand is `5`, so `√5 < 5`)
although the center distance is exactly `5`, which is not `< 5`. -/
theorem claim_C3_circlesOverlapping_defect :
    Collision2D.CirclesOverlapping ⟨2, ⟨0, 0⟩⟩ ⟨3, ⟨3, 4⟩⟩ ∧
    ¬ Real.sqrt (((0 : ℝ) - 3) ^ 2 + ((0 : ℝ) - 4) ^ 2) < 2 + 3 := by
  constructor
  · unfold Collision2D.CirclesOverlapping
    norm_num
    calc Real.sqrt 5 < Real.sqrt 25 := Real.sqrt_lt_sqrt (by norm_num) (by norm_num)
      _ = 5 := by rw [show (25 : ℝ) = 5 ^ 2 by norm_num, Real.sqrt_sq (by norm_num)]
  · rw [show ((0 : ℝ) - 3) ^ 2 + ((0 : ℝ) - 4) ^ 2 = 5 ^ 2 by norm_num,
      Real.sqrt_sq (by norm_num)]
    norm_num

/-- Claim C4 (counterexample): the claim says `LineSegmentsOverlapping` is
true iff at least one endpoint of either segment lies on the other segment.
For `line1 = [(0,0),(2,0)]` and `line2 = [(1,0),(1,1)]` the endpoint `(1,0)`
of `line2` lies on `line1`, yet the function returns false: every disjunct of
its condition is a conjunction demanding a second incidence that does not
hold here. -/
theorem claim_C4_counterexample :
    Collision2D.PointOnLineSegment ⟨1, 0⟩ (⟨0, 0⟩, ⟨2, 0⟩) 0 ∧
    ¬ Collision2D.LineSegmentsOverlapping (⟨0, 0⟩, ⟨2, 0⟩) (⟨1, 0⟩, ⟨1, 1⟩) := by
  constructor
  · unfold Collision2D.PointOnLineSegment
    norm_num
  · unfold Collision2D.LineSegmentsOverlapping Collision2D.PointOnLineSegment
    norm_num

/-- Claim C4 (amended): `LineSegmentsOverlapping(line1, line2)` is true iff
at least one endpoint of each segment lies on the other segment, or both
endpoints of one segment lie on the other segment (all incidences decided by
`PointOnLineSegment` with threshold 0).  This is the six-disjunct condition
of the source, factored. -/
theorem claim_C4_lineSegmentsOverlapping_amended :
    ∀ line1 line2 : Point × Point,
      Collision2D.LineSegmentsOverlapping line1 line2 ↔
        (((Collision2D.PointOnLineSegment line1.1 line2 0 ∨
            Collision2D.PointOnLineSegment line1.2 line2 0) ∧
          (Collision2D.PointOnLineSegment line2.1 line1 0 ∨
            Collision2D.PointOnLineSegment line2.2 line1 0)) ∨
        (Collision2D.PointOnLineSegment line1.1 line2 0 ∧
          Collision2D.PointOnLineSegment line1.2 line2 0) ∨
        (Collision2D.PointOnLineSegment line2.1 line1 0 ∧
          Collision2D.PointOnLineSegment line2.2 line1 0)) := by
  intro line1 line2
  unfold Collision2D.LineSegmentsOverlapping
  tauto

/-- Claim C5: `LineSegmentsIntersection` returns null whenever the solving
denominator vanishes (parallel or collinear segments — in JavaScript `s` and
`t` are then NaN or ±∞ and the `[0,1]` guard fails); when the denominator is
nonzero it returns the common point of the two parametrized lines exactly
when both solved parameters `s, t` lie in `[0,1]` (endpoint contact included)
and null otherwise; concretely it returns null for `[(0,0),(1,0)]` vs
`[(0,1),(1,1)]` and the point `(1,1)` for `[(0,0),(2,2)]` vs `[(0,2),(2,0)]`. -/
theorem claim_C5_lineSegmentsIntersection :
    (∀ e1 e2 : Point × Point,
      -(e2.2.x - e2.1.x) * (e1.2.y - e1.1.y) +
        (e1.2.x - e1.1.x) * (e2.2.y - e2.1.y) = 0 →
      Collision2D.LineSegmentsIntersection e1 e2 = none) ∧
    (∀ e1 e2 : Point × Point, ∀ s t : ℝ,
      -(e2.2.x - e2.1.x) * (e1.2.y - e1.1.y) +
        (e1.2.x - e1.1.x) * (e2.2.y - e2.1.y) ≠ 0 →
      s = (-(e1.2.y - e1.1.y) * (e1.1.x - e2.1.x) +
          (e1.2.x - e1.1.x) * (e1.1.y - e2.1.y)) /
        (-(e2.2.x - e2.1.x) * (e1.2.y - e1.1.y) +
          (e1.2.x - e1.1.x) * (e2.2.y - e2.1.y)) →
      t = ((e2.2.x - e2.1.x) * (e1.1.y - e2.1.y) -
          (e2.2.y - e2.1.y) * (e1.1.x - e2.1.x)) /
        (-(e2.2.x - e2.1.x) * (e1.2.y - e1.1.y) +
          (e1.2.x - e1.1.x) * (e2.2.y - e2.1.y)) →
      (0 ≤ s ∧ s ≤ 1 ∧ 0 ≤ t ∧ t ≤ 1 →
        Collision2D.LineSegmentsIntersection e1 e2 =
          some ⟨e1.1.x + t * (e1.2.x - e1.1.x), e1.1.y + t * (e1.2.y - e1.1.y)⟩ ∧
        e1.1.x + t * (e1.2.x - e1.1.x) = e2.1.x + s * (e2.2.x - e2.1.x) ∧
        e1.1.y + t * (e1.2.y - e1.1.y) = e2.1.y + s * (e2.2.y - e2.1.y)) ∧
      (¬(0 ≤ s ∧ s ≤ 1 ∧ 0 ≤ t ∧ t ≤ 1) →
        Collision2D.LineSegmentsIntersection e1 e2 = none)) ∧
    Collision2D.LineSegmentsIntersection (⟨0, 0⟩, ⟨1, 0⟩) (⟨0, 1⟩, ⟨1, 1⟩) = none ∧
    Collision2D.LineSegmentsIntersection (⟨0, 0⟩, ⟨2, 2⟩) (⟨0, 2⟩, ⟨2, 0⟩) =
      some ⟨1, 1⟩ := by
  refine ⟨?_, ?_, ?_, ?_⟩
  · intro e1 e2 h
    unfold Collision2D.LineSegmentsIntersection
    simp only
    rw [if_pos h]
  · intro e1 e2 s t hden hs ht
    obtain ⟨⟨x1, y1⟩, ⟨x2, y2⟩⟩ := e1
    obtain ⟨⟨x3, y3⟩, ⟨x4, y4⟩⟩ := e2
    simp only at hden hs ht ⊢
    unfold Collision2D.LineSegmentsIntersection
    simp only
    rw [if_neg hden]
    have htD : t * (-(x4 - x3) * (y2 - y1) + (x2 - x1) * (y4 - y3)) =
        (x4 - x3) * (y1 - y3) - (y4 - y3) * (x1 - x3) := by
      rw [ht, div_mul_cancel₀ _ hden]
    have hsD : s * (-(x4 - x3) * (y2 - y1) + (x2 - x1) * (y4 - y3)) =
        -(y2 - y1) * (x1 - x3) + (x2 - x1) * (y1 - y3) := by
      rw [hs, div_mul_cancel₀ _ hden]
    constructor
    · intro hg
      rw [hs, ht] at hg
      rw [if_pos hg]
      have hxden : (y2 - y1) * (x4 - x3) - (y4 - y3) * (x2 - x1) ≠ 0 := by
        rw [show (y2 - y1) * (x4 - x3) - (y4 - y3) * (x2 - x1) =
          -(-(x4 - x3) * (y2 - y1) + (x2 - x1) * (y4 - y3)) from by ring]
        exact neg_ne_zero.mpr hden
      have hyden : (y4 - y3) * (x2 - x1) - (y2 - y1) * (x4 - x3) ≠ 0 := by
        rw [show (y4 - y3) * (x2 - x1) - (y2 - y1) * (x4 - x3) =
          -(x4 - x3) * (y2 - y1) + (x2 - x1) * (y4 - y3) from by ring]
        exact hden
      refine ⟨?_, ?_, ?_⟩
      · simp only [Option.some.injEq, Point.mk.injEq]
        constructor
        · rw [div_eq_iff hxden]
          linear_combination (x2 - x1) * htD
        · rw [div_eq_iff hyden]
          linear_combination (-(y2 - y1)) * htD
      · refine mul_right_cancel₀ hden ?_
        linear_combination (x2 - x1) * htD - (x4 - x3) * hsD
      · refine mul_right_cancel₀ hden ?_
        linear_combination (y2 - y1) * htD - (y4 - y3) * hsD
    · intro hg
      rw [hs, ht] at hg
      rw [if_neg hg]
  · unfold Collision2D.LineSegmentsIntersection
    norm_num
  · unfold Collision2D.LineSegmentsIntersection
    norm_num

/-- Witness for C5 at a concrete input: the parallel horizontal segments
`[(0,0),(1,0)]` and `[(0,1),(1,1)]` have denominator 0 and the function
returns null. -/
theorem claim_C5_witness :
    Collision2D.LineSegmentsIntersection (⟨0, 0⟩, ⟨1, 0⟩) (⟨0, 1⟩, ⟨1, 1⟩) = none :=
  claim_C5_lineSegmentsIntersection.1 (⟨0, 0⟩, ⟨1, 0⟩) (⟨0, 1⟩, ⟨1, 1⟩) (by norm_num)
/-- Claim C6: for circles with non-negative radii and distinct centers,
`CirclesIntersection` returns null exactly when the center distance `d`
satisfies `d > r0 + r1` or `d < |r0 - r1|`; it returns a single point when
the circles are tangent and two distinct points otherwise.  Concretely,
radius-5 circles at `(0,0)` and `(8,0)` give the two points `(4, ±3)`
symmetric about the x-axis, at `(0,0)` and `(10,0)` exactly the one point
`(5,0)`, and at `(0,0)` and `(20,0)` null. -/
theorem claim_C6_circlesIntersection :
    (∀ c1 c2 : Collision2D.Circle, 0 ≤ c1.radius → 0 ≤ c2.radius →
      c1.center ≠ c2.center →
      (Collision2D.CirclesIntersection c1 c2 = none ↔
        c1.radius + c2.radius <
          Real.sqrt ((c2.center.x - c1.center.x) ^ 2 + (c2.center.y - c1.center.y) ^ 2) ∨
        Real.sqrt ((c2.center.x - c1.center.x) ^ 2 + (c2.center.y - c1.center.y) ^ 2) <
          |c1.radius - c2.radius|) ∧
      ((Real.sqrt ((c2.center.x - c1.center.x) ^ 2 + (c2.center.y - c1.center.y) ^ 2) =
          c1.radius + c2.radius ∨
        Real.sqrt ((c2.center.x - c1.center.x) ^ 2 + (c2.center.y - c1.center.y) ^ 2) =
          |c1.radius - c2.radius|) →
        ∃ p, Collision2D.CirclesIntersection c1 c2 = some [p]) ∧
      ((|c1.radius - c2.radius| <
          Real.sqrt ((c2.center.x - c1.center.x) ^ 2 + (c2.center.y - c1.center.y) ^ 2) ∧
        Real.sqrt ((c2.center.x - c1.center.x) ^ 2 + (c2.center.y - c1.center.y) ^ 2) <
          c1.radius + c2.radius) →
        ∃ p q, p ≠ q ∧ Collision2D.CirclesIntersection c1 c2 = some [p, q])) ∧
    Collision2D.CirclesIntersection ⟨5, ⟨0, 0⟩⟩ ⟨5, ⟨8, 0⟩⟩ =
      some [⟨some 4, some 3⟩, ⟨some 4, some (-3)⟩] ∧
    Collision2D.CirclesIntersection ⟨5, ⟨0, 0⟩⟩ ⟨5, ⟨10, 0⟩⟩ =
      some [⟨some 5, some 0⟩] ∧
    Collision2D.CirclesIntersection ⟨5, ⟨0, 0⟩⟩ ⟨5, ⟨20, 0⟩⟩ = none := by
  refine ⟨?_, ?_, ?_, ?_⟩
  · intro c1 c2 h0 h1 hne
    have hxy : c2.center.x - c1.center.x ≠ 0 ∨ c2.center.y - c1.center.y ≠ 0 := by
      by_contra hcon
      push_neg at hcon
      obtain ⟨hx, hy⟩ := hcon
      exact hne (Point.ext (by linarith) (by linarith))
    have hsumpos : 0 < (c2.center.x - c1.center.x) ^ 2 +
        (c2.center.y - c1.center.y) ^ 2 := by
      rcases hxy with hx | hy
      · nlinarith [sq_nonneg (c2.center.y - c1.center.y), pow_two_pos_of_ne_zero hx]
      · nlinarith [sq_nonneg (c2.center.x - c1.center.x), pow_two_pos_of_ne_zero hy]
    have hD0 : 0 < Real.sqrt ((c2.center.x - c1.center.x) ^ 2 +
        (c2.center.y - c1.center.y) ^ 2) := Real.sqrt_pos.mpr hsumpos
    unfold Collision2D.CirclesIntersection
    simp only
    rw [show (c2.center.y - c1.center.y) * (c2.center.y - c1.center.y) +
        (c2.center.x - c1.center.x) * (c2.center.x - c1.center.x) =
        (c2.center.x - c1.center.x) ^ 2 + (c2.center.y - c1.center.y) ^ 2 from by ring]
    set D := Real.sqrt ((c2.center.x - c1.center.x) ^ 2 + (c2.center.y - c1.center.y) ^ 2)
      with hDdef
    split_ifs with hg1 hg2 hg3
    · refine ⟨⟨fun _ => Or.inl hg1, fun _ => rfl⟩, ?_, ?_⟩
      · rintro (he | he)
        · rw [he] at hg1
          exact absurd hg1 (lt_irrefl _)
        · rw [he] at hg1
          rcases abs_cases (c1.radius - c2.radius) with ⟨hab, -⟩ | ⟨hab, -⟩ <;>
            rw [hab] at hg1 <;> [linarith; linarith]
      · rintro ⟨-, hlt⟩
        linarith
    · refine ⟨⟨fun _ => Or.inr hg2, fun _ => rfl⟩, ?_, ?_⟩
      · rintro (he | he)
        · rw [he] at hg2
          rcases abs_cases (c1.radius - c2.radius) with ⟨hab, -⟩ | ⟨hab, -⟩ <;>
            rw [hab] at hg2 <;> [linarith; linarith]
        · rw [he] at hg2
          exact absurd hg2 (lt_irrefl _)
      · rintro ⟨habs, -⟩
        linarith
    · exact absurd hg3 (ne_of_gt hD0)
    · have hDne : D ≠ 0 := hg3
      have hle1 : D ≤ c1.radius + c2.radius := not_lt.mp hg1
      have hle2 : |c1.radius - c2.radius| ≤ D := not_lt.mp hg2
      refine ⟨⟨fun h => by simp at h, ?_⟩, ?_, ?_⟩
      · rintro (h | h)
        · exact absurd h hg1
        · exact absurd h hg2
      · intro htan
        have haa : (c1.radius * c1.radius - c2.radius * c2.radius + D * D) / (2 * D) *
            ((c1.radius * c1.radius - c2.radius * c2.radius + D * D) / (2 * D)) =
            c1.radius * c1.radius := by
          rcases htan with he | he
          · have hne' : c1.radius + c2.radius ≠ 0 := by rw [← he]; exact hDne
            rw [he]
            field_simp
            ring
          · rcases abs_cases (c1.radius - c2.radius) with ⟨hab, -⟩ | ⟨hab, -⟩
            · have he' : D = c1.radius - c2.radius := by rw [he, hab]
              have hne' : c1.radius - c2.radius ≠ 0 := by rw [← he']; exact hDne
              rw [he']
              field_simp
              ring
            · have he' : D = c2.radius - c1.radius := by rw [he, hab]; ring
              have hne' : c2.radius - c1.radius ≠ 0 := by rw [← he']; exact hDne
              rw [he']
              field_simp
              ring
        obtain ⟨p, hp⟩ := Collision2D.ciPoints_single c1 c2 D haa
        exact ⟨p, by rw [hp]⟩
      · rintro ⟨habs, hlt⟩
        have hpos : 0 < c1.radius * c1.radius -
            ((c1.radius * c1.radius - c2.radius * c2.radius + D * D) / (2 * D)) *
              ((c1.radius * c1.radius - c2.radius * c2.radius + D * D) / (2 * D)) := by
          have hfact : c1.radius * c1.radius -
              ((c1.radius * c1.radius - c2.radius * c2.radius + D * D) / (2 * D)) *
                ((c1.radius * c1.radius - c2.radius * c2.radius + D * D) / (2 * D)) =
              ((c1.radius + c2.radius) * (c1.radius + c2.radius) - D * D) *
                (D * D - (c1.radius - c2.radius) * (c1.radius - c2.radius)) /
                (4 * (D * D)) := by
            field_simp
            ring
          rw [hfact]
          apply div_pos
          · apply mul_pos
            · nlinarith
            · obtain ⟨hl, hr⟩ := abs_lt.mp habs
              nlinarith
          · nlinarith
        obtain ⟨p, q, hpq, hlist⟩ := Collision2D.ciPoints_two c1 c2 D hD0 hxy hpos
        exact ⟨p, q, hpq, by rw [hlist]⟩
  · unfold Collision2D.CirclesIntersection
    simp only
    rw [show ((0:ℝ) - 0) * (0 - 0) + (8 - 0) * (8 - 0) = 8 ^ 2 by norm_num,
      Real.sqrt_sq (by norm_num), if_neg (by norm_num), if_neg (by norm_num),
      if_neg (by norm_num)]
    unfold Collision2D.ciPoints
    simp only
    rw [show (5:ℝ) * 5 - (5 * 5 - 5 * 5 + 8 * 8) / (2 * 8) *
        ((5 * 5 - 5 * 5 + 8 * 8) / (2 * 8)) = 3 ^ 2 by norm_num,
      Real.sqrt_sq (by norm_num), if_neg (by norm_num)]
    norm_num
  · unfold Collision2D.CirclesIntersection
    simp only
    rw [show ((0:ℝ) - 0) * (0 - 0) + (10 - 0) * (10 - 0) = 10 ^ 2 by norm_num,
      Real.sqrt_sq (by norm_num), if_neg (by norm_num), if_neg (by norm_num),
      if_neg (by norm_num)]
    unfold Collision2D.ciPoints
    simp only
    rw [show (5:ℝ) * 5 - (5 * 5 - 5 * 5 + 10 * 10) / (2 * 10) *
        ((5 * 5 - 5 * 5 + 10 * 10) / (2 * 10)) = 0 by norm_num, Real.sqrt_zero]
    norm_num
  · unfold Collision2D.CirclesIntersection
    simp only
    rw [if_pos]
    rw [show ((0:ℝ) - 0) * (0 - 0) + (20 - 0) * (20 - 0) = 20 ^ 2 by norm_num,
      Real.sqrt_sq (by norm_num)]
    norm_num

/-- Witness for C6 at a concrete input: the radius-5 circles at `(0,0)` and
`(8,0)` satisfy the hypotheses and fall in the two-distinct-points case. -/
theorem claim_C6_witness :
    ∃ p q, p ≠ q ∧
      Collision2D.CirclesIntersection ⟨5, ⟨0, 0⟩⟩ ⟨5, ⟨8, 0⟩⟩ = some [p, q] :=
  (claim_C6_circlesIntersection.1 ⟨5, ⟨0, 0⟩⟩ ⟨5, ⟨8, 0⟩⟩ (by norm_num) (by norm_num)
    (by simp [Point.mk.injEq])).2.2
    (by
      rw [show ((8:ℝ) - 0) ^ 2 + ((0:ℝ) - 0) ^ 2 = 8 ^ 2 by norm_num,
        Real.sqrt_sq (by norm_num)]
      norm_num)

/-- Claim C7: for a polygon with nonzero signed shoelace area, after
`TranslateTo(polygon, t)` the centroid `GetCenterPoint` of the updated
polygon equals the original target `t` (exactly, in real arithmetic). -/
theorem claim_C7_translateTo_centers :
    ∀ (polygon : List Point) (t : Point), Polygon.GetArea polygon true ≠ 0 →
      Polygon.GetCenterPoint (Polygon.TranslateTo polygon t).1 = t := by
  intro polygon t hA
  have hS : Polygon.shoelace polygon ≠ 0 := by
    intro h
    apply hA
    rw [Polygon.getArea_signed, h]
    norm_num
  have h1 : (Polygon.TranslateTo polygon t).1 =
      Polygon.TranslateBy polygon ⟨t.x - (Polygon.GetCenterPoint polygon).x,
        t.y - (Polygon.GetCenterPoint polygon).y⟩ := rfl
  rw [h1, Polygon.getCenterPoint_TranslateBy _ _ hS]
  apply Point.ext <;> simp

/-- Witness for C7 at a concrete input: the triangle `(0,0),(2,0),(0,2)` has
signed area 2 and, translated to target `(5,7)`, its centroid is `(5,7)`. -/
theorem claim_C7_witness :
    Polygon.GetCenterPoint
      (Polygon.TranslateTo [(⟨0, 0⟩ : Point), ⟨2, 0⟩, ⟨0, 2⟩] ⟨5, 7⟩).1 = ⟨5, 7⟩ :=
  claim_C7_translateTo_centers _ _ (by
    simp [Polygon.GetArea, Polygon.areaSum, Polygon.px, Polygon.py,
      Finset.sum_range_succ])

/-- Claim C8: `Normalize` is total with no division by zero: every nonzero
vector normalizes to a vector of Euclidean length 1, and the zero vector
normalizes to itself (the `|| 1` guard replaces the zero length by 1), in
both the static and the instance form. -/
theorem claim_C8_normalize :
    (∀ v : Vector2, v ≠ ⟨0, 0⟩ →
      Vector2.Length (Vector2.Normalize v) = 1 ∧
      Vector2.length (Vector2.normalize v) = 1) ∧
    Vector2.Normalize ⟨0, 0⟩ = ⟨0, 0⟩ ∧ Vector2.normalize ⟨0, 0⟩ = ⟨0, 0⟩ := by
  refine ⟨fun v hv => ⟨?_, ?_⟩, ?_, ?_⟩
  · exact Vector2.normalize_unit v hv
  · exact Vector2.normalize_unit v hv
  · unfold Vector2.Normalize
    simp
  · unfold Vector2.normalize
    simp

/-- Witness for C8 at a concrete input: `(3,4)` is nonzero and normalizes to
a unit vector in both forms. -/
theorem claim_C8_witness :
    Vector2.Length (Vector2.Normalize ⟨3, 4⟩) = 1 ∧
    Vector2.length (Vector2.normalize ⟨3, 4⟩) = 1 :=
  claim_C8_normalize.1 ⟨3, 4⟩ (by
    intro h
    rw [Vector2.mk.injEq] at h
    exact absurd h.1 (by norm_num))

/-- Claim C9: `TranslateTo(polygon, position)` overwrites its `position`
argument with the translation delta (`position` minus the centroid), so the
caller's target no longer holds the target coordinates whenever the centroid
is nonzero; the function's entire effect is the new vertex array (each vertex
shifted by that delta) together with the overwritten `position`. -/
theorem claim_C9_translateTo_mutates_position :
    ∀ (polygon : List Point) (position : Point),
      (Polygon.TranslateTo polygon position).2 =
        ⟨position.x - (Polygon.GetCenterPoint polygon).x,
          position.y - (Polygon.GetCenterPoint polygon).y⟩ ∧
      (Polygon.TranslateTo polygon position).1 =
        polygon.map (fun k =>
          ⟨k.x + (position.x - (Polygon.GetCenterPoint polygon).x),
            k.y + (position.y - (Polygon.GetCenterPoint polygon).y)⟩) ∧
      (Polygon.GetCenterPoint polygon ≠ ⟨0, 0⟩ →
        (Polygon.TranslateTo polygon position).2 ≠ position) := by
  intro polygon position
  refine ⟨rfl, rfl, ?_⟩
  intro hcp heq
  apply hcp
  have hx : position.x - (Polygon.GetCenterPoint polygon).x = position.x :=
    congrArg Point.x heq
  have hy : position.y - (Polygon.GetCenterPoint polygon).y = position.y :=
    congrArg Point.y heq
  have hcx : (Polygon.GetCenterPoint polygon).x = 0 := by linarith
  have hcy : (Polygon.GetCenterPoint polygon).y = 0 := by linarith
  exact Point.ext hcx hcy

/-- Witness for C9 at a concrete input: the triangle `(0,0),(2,0),(0,2)` has
centroid `(2/3, 2/3) ≠ (0,0)`, so after the call the `position` argument no
longer holds its original value `(0,0)`. -/
theorem claim_C9_witness :
    (Polygon.TranslateTo [(⟨0, 0⟩ : Point), ⟨2, 0⟩, ⟨0, 2⟩] ⟨0, 0⟩).2 ≠ ⟨0, 0⟩ :=
  (claim_C9_translateTo_mutates_position _ _).2.2 (by
    rw [show Polygon.GetCenterPoint [(⟨0, 0⟩ : Point), ⟨2, 0⟩, ⟨0, 2⟩] =
        ⟨2 / 3, 2 / 3⟩ from by
      simp [Polygon.GetCenterPoint, Polygon.GetArea, Polygon.areaSum, Polygon.cnumX,
        Polygon.cnumY, Polygon.px, Polygon.py, Finset.sum_range_succ]
      norm_num]
    simp [Point.mk.injEq])

/-- Claim C10: for two identical circles (equal centers, equal positive
radii) `CirclesIntersection` does not return null: the center distance is 0,
neither null guard fires, the division `a = 0/0` produces NaN, and the
function returns a two-element array of NaN points. -/
theorem claim_C10_identical_circles_nan :
    Collision2D.CirclesIntersection ⟨1, ⟨0, 0⟩⟩ ⟨1, ⟨0, 0⟩⟩ =
      some [⟨none, none⟩, ⟨none, none⟩] := by
  unfold Collision2D.CirclesIntersection
  norm_num
